import Mathlib

/-!
Verification of the BotTrading signal engine (`src/strategy.py`,
`src/indicators.py`), the symbol normalizer (`src/exchange.py`) and the
cooldown bookkeeping (`src/notifier.py`).

Shallow embedding conventions:
* pandas Series become `List ℚ`; OHLCV rows become `Candle` (the engine never
  reads timestamp or volume, so those columns are omitted);
* NaN positions of an indicator series become `none` in `List (Option ℚ)`;
* Python floats become exact rationals (the literal `1e-9` is embedded as
  `1 / 10 ^ 9`);
* `None` returns of `detect` become `Option.none`; a raised `ValueError`
  becomes `Except.error`;
* the wall clock and the JSON cooldown cache are passed explicitly.
-/

/-- One OHLCV candle. `opn` stands for the source's `open` column, which is a
Lean keyword. -/
structure Candle where
  opn : ℚ
  high : ℚ
  low : ℚ
  close : ℚ
deriving DecidableEq

/-- Tail of the exponentially weighted mean: given the previous smoothed value
`prev`, each step produces `alpha * x + (1 - alpha) * prev`. -/
def emaRec (alpha prev : ℚ) : List ℚ → List ℚ
  | [] => []
  | x :: xs =>
    let y := alpha * x + (1 - alpha) * prev
    y :: emaRec alpha y xs

/-- Embedding of `ema` / `_ema`: `series.ewm(span=length, adjust=False).mean()`,
i.e. the recurrence seeded at the first value with `alpha = 2 / (length + 1)`. -/
def ema (xs : List ℚ) (length : ℕ) : List ℚ :=
  match xs with
  | [] => []
  | x :: rest => x :: emaRec (2 / ((length : ℚ) + 1)) x rest

/-- True range of every bar after the first: `max(high - low, |high - prevClose|,
|low - prevClose|)`. -/
def trueRangesFrom (prevClose : ℚ) : List Candle → List ℚ
  | [] => []
  | c :: rest =>
    max (c.high - c.low) (max |c.high - prevClose| |c.low - prevClose|) ::
      trueRangesFrom c.close rest

/-- True-range series of `_atr`. On the first bar `prev_close` is NaN, and the
row-wise pandas `max` (default `skipna=True`) drops the two NaN terms, leaving
`high - low`. -/
def trueRanges : List Candle → List ℚ
  | [] => []
  | c :: rest => (c.high - c.low) :: trueRangesFrom c.close rest

/-- Embedding of `tr.rolling(length).mean()`: with pandas' default
`min_periods = window`, position `i` is NaN (here `none`) until a full window
of `length` values is available, then the arithmetic mean of that window. -/
def rollingMean (window : ℕ) (xs : List ℚ) : List (Option ℚ) :=
  (List.range xs.length).map fun i =>
    if i + 1 < window then none
    else some ((((xs.take (i + 1)).drop (i + 1 - window)).sum) / (window : ℚ))

/-- Embedding of `atr` / `_atr` from `src/indicators.py` / `src/strategy.py`. -/
def atr (df : List Candle) (length : ℕ) : List (Option ℚ) :=
  rollingMean length (trueRanges df)

/-- Embedding of `series.iloc[-1]`. Callers guard non-emptiness (the engine
requires 210 rows), so the default value is never read. -/
def ilast (xs : List ℚ) : ℚ := xs.getLast?.getD 0

/-- Embedding of `series.iloc[-2]`. -/
def ilast2 (xs : List ℚ) : ℚ := ilast xs.dropLast

/-- Embedding of `_is_bullish`: latest candle green, closing at or above the
fast average or reclaiming it from below, with close not below the previous
close. (The source also reads `open.iloc[-2]` but never uses it.) -/
def isBullish (df15 : List Candle) (ema50 : ℚ) : Prop :=
  ilast (df15.map Candle.close) > ilast (df15.map Candle.opn)
  ∧ (ilast (df15.map Candle.close) ≥ ema50
      ∨ (ilast2 (df15.map Candle.close) < ema50
          ∧ ilast (df15.map Candle.close) > ema50))
  ∧ ilast (df15.map Candle.close) ≥ ilast2 (df15.map Candle.close)

instance (df15 : List Candle) (e : ℚ) : Decidable (isBullish df15 e) := by
  unfold isBullish
  infer_instance

/-- Embedding of `_is_bearish`, the mirror image of `_is_bullish`. -/
def isBearish (df15 : List Candle) (ema50 : ℚ) : Prop :=
  ilast (df15.map Candle.close) < ilast (df15.map Candle.opn)
  ∧ (ilast (df15.map Candle.close) ≤ ema50
      ∨ (ilast2 (df15.map Candle.close) > ema50
          ∧ ilast (df15.map Candle.close) < ema50))
  ∧ ilast (df15.map Candle.close) ≤ ilast2 (df15.map Candle.close)

instance (df15 : List Candle) (e : ℚ) : Decidable (isBearish df15 e) := by
  unfold isBearish
  infer_instance

/-- The parameter dict `p` of `detect` (`PARAMS` in `src/config.py`).
`min_score` is optional because the source reads it with
`p.get("min_score", 55)`. -/
structure Params where
  ema_fast : ℕ
  ema_slow : ℕ
  atr_len : ℕ
  atr_mult : ℚ
  pullback_pct : ℚ
  min_rr : ℚ
  cooldown_minutes : ℤ
  min_score : Option ℤ
deriving DecidableEq

/-- Embedding of `int(p.get("min_score", 55))`. -/
def minScoreEff (p : Params) : ℤ := p.min_score.getD 55

/-- The `Signal` dataclass of `src/strategy.py`. `side` keeps the source's
string encoding ("LONG" / "SHORT"). -/
structure Signal where
  symbol : String
  side : String
  entry : ℚ
  sl : ℚ
  tp1 : ℚ
  tp2 : ℚ
  rr : ℚ
  score : ℤ
  reason : String
  invalidate : String
deriving DecidableEq

/-- The 4H regime block of `detect`: "BULL" when the last close is strictly
above the last slow EMA, "BEAR" when strictly below, and the `else: return
None` arm on exact equality becomes `none`. -/
def regimeOf (closes : List ℚ) (ema_slow : ℕ) : Option String :=
  if ilast closes > ilast (ema closes ema_slow) then some "BULL"
  else if ilast closes < ilast (ema closes ema_slow) then some "BEAR"
  else none

/-- The 1H bias block of `detect`: `"LONG" if last_close > last_ema else
"SHORT"`. -/
def biasOf (closes : List ℚ) (ema_slow : ℕ) : String :=
  if ilast closes > ilast (ema closes ema_slow) then "LONG" else "SHORT"

/-- Embedding of `float(atr15.iloc[-1]) if pd.notna(atr15.iloc[-1]) else None`:
the last ATR position when it exists and is not NaN. -/
def lastAtrOf (df : List Candle) (length : ℕ) : Option ℚ :=
  ((atr df length).getLast?).join

/-- Embedding of `detect(df15, df1h, df4h, symbol, p)` from `src/strategy.py`.
The two final gates (`rr < min_rr`, `score < min_score`) are written once after
the direction branch in the source; here they are repeated inside each branch,
which is equivalent because both branches fall through to them. The `score`
accumulator is `0 + 25 + 20 + 10` before the branch and gains `15` after the
trigger check. -/
def detect (df15 df1h df4h : List Candle) (symbol : String) (p : Params) :
    Option Signal :=
  -- Safety: need enough rows (hard-coded 210 in the source)
  if df15.length < 210 ∨ df1h.length < 210 ∨ df4h.length < 210 then none else
  (regimeOf (df4h.map Candle.close) p.ema_slow).bind fun regime =>
  let bias := biasOf (df1h.map Candle.close) p.ema_slow
  -- Enforce direction
  if (regime = "BULL" ∧ ¬ bias = "LONG") ∨ (regime = "BEAR" ∧ ¬ bias = "SHORT")
    then none else
  let last_close_15 := ilast (df15.map Candle.close)
  let last_ema50_15 := ilast (ema (df15.map Candle.close) p.ema_fast)
  (lastAtrOf df15 p.atr_len).bind fun last_atr_15 =>
  if last_atr_15 ≤ 0 then none else
  -- Pullback check (wider zone + wick touch accepted)
  let last_high := ilast (df15.map Candle.high)
  let last_low := ilast (df15.map Candle.low)
  let dist := |last_close_15 - last_ema50_15| / max last_close_15 (1 / 10 ^ 9)
  if ¬ (dist ≤ p.pullback_pct
        ∨ (last_low ≤ last_ema50_15 ∧ last_ema50_15 ≤ last_high)) then none else
  let score : ℤ := 0 + 25 + 20 + 10
  if regime = "BULL" then
    if ¬ isBullish df15 last_ema50_15 then none else
    let entry := last_close_15
    let sl := entry - p.atr_mult * last_atr_15
    let risk := entry - sl
    if risk ≤ 0 then none else
    let tp1 := entry + p.min_rr * risk
    let tp2 := entry + (5 / 2) * risk
    let rr := (tp1 - entry) / risk
    if rr < p.min_rr then none else
    if score + 15 < minScoreEff p then none else
    some ⟨symbol, "LONG", entry, sl, tp1, tp2, rr, score + 15,
      "Aggressive: 4H bull + 1H long + 15m pullback EMA50 + bullish close/reclaim",
      "15m close below EMA50"⟩
  else
    if ¬ isBearish df15 last_ema50_15 then none else
    let entry := last_close_15
    let sl := entry + p.atr_mult * last_atr_15
    let risk := sl - entry
    if risk ≤ 0 then none else
    let tp1 := entry - p.min_rr * risk
    let tp2 := entry - (5 / 2) * risk
    let rr := (entry - tp1) / risk
    if rr < p.min_rr then none else
    if score + 15 < minScoreEff p then none else
    some ⟨symbol, "SHORT", entry, sl, tp1, tp2, rr, score + 15,
      "Aggressive: 4H bear + 1H short + 15m pullback EMA50 + bearish close/reject",
      "15m close above EMA50"⟩

/-- Characterwise model of Python `str.upper` (the String library functions
are not kernel-reducible, so the embedding works on the character list). -/
def pyUpper (s : String) : String := ⟨s.data.map Char.toUpper⟩

/-- Characterwise model of Python `str.strip`: drop leading and trailing
whitespace. -/
def pyStrip (s : String) : String :=
  ⟨((s.data.dropWhile Char.isWhitespace).reverse.dropWhile
      Char.isWhitespace).reverse⟩

deriving instance DecidableEq for Except

/-- Embedding of `normalize_symbol` from `src/exchange.py`. A raised
`ValueError` becomes `Except.error`; the Python message interpolates the repr
of the argument, modelled here by the argument itself. Python's `"/" in s`,
`s.endswith("USDT")`, `len(s) > 4` and `s[:-4]` are modelled on the character
list of `s`. -/
def normalize_symbol (symbol : String) : Except String String :=
  let s := pyUpper (pyStrip symbol)
  -- Already CCXT-like (contains a slash): returned as-is
  if s.data.contains '/' then .ok s
  -- UI style: BTCUSDT -> BTC/USDT:USDT
  else if "USDT".data.isSuffixOf s.data ∧ s.data.length > 4 then
    .ok (⟨s.data.take (s.data.length - 4)⟩ ++ "/USDT:USDT")
  else .error ("Unsupported symbol format: " ++ symbol)

/-- The persisted cooldown cache of `src/notifier.py` (a JSON object mapping
keys to Unix timestamps), modelled as an association list; `cache.get(key, 0)`
is the first binding or 0. -/
abbrev Cache := List (String × ℤ)

/-- Embedding of `cache.get(key, 0)`. -/
def cacheGet : Cache → String → ℤ
  | [], _ => 0
  | (k, v) :: rest, key => if k = key then v else cacheGet rest key

/-- Embedding of `cooldown_ok(key, minutes)`: the current time
`now = int(time.time())` and the cache are explicit; the result pairs the
returned Bool with the cache state after the call (`cache[key] = now` is
recorded only on the allowed path). -/
def cooldown_ok (cache : Cache) (key : String) (minutes : ℤ) (now : ℤ) :
    Bool × Cache :=
  let last := cacheGet cache key
  if now - last < minutes * 60 then (false, cache)
  else (true, (key, now) :: cache)

/-! Evaluation lemmas for series of the shapes `replicate n q` and
`replicate n q ++ [x]`, used to run the engine on concrete inputs. -/

theorem ilast_concat (xs : List ℚ) (x : ℚ) : ilast (xs ++ [x]) = x := by
  simp [ilast]

theorem ilast_replicate (n : ℕ) (q : ℚ) (h : n ≠ 0) :
    ilast (List.replicate n q) = q := by
  cases n with
  | zero => exact absurd rfl h
  | succ m => simp [List.replicate_succ', ilast_concat]

theorem ilast2_concat (xs : List ℚ) (x : ℚ) : ilast2 (xs ++ [x]) = ilast xs := by
  simp [ilast2, List.dropLast_concat]

theorem emaRec_replicate (alpha q : ℚ) (n : ℕ) :
    emaRec alpha q (List.replicate n q) = List.replicate n q := by
  induction n with
  | zero => simp [emaRec]
  | succ m ih =>
    have hq : alpha * q + (1 - alpha) * q = q := by ring
    rw [List.replicate_succ]
    simp only [emaRec]
    rw [hq, ih]

theorem emaRec_replicate_concat (alpha q x : ℚ) (n : ℕ) :
    emaRec alpha q (List.replicate n q ++ [x]) =
      List.replicate n q ++ [alpha * x + (1 - alpha) * q] := by
  induction n with
  | zero => simp [emaRec]
  | succ m ih =>
    have hq : alpha * q + (1 - alpha) * q = q := by ring
    rw [List.replicate_succ, List.cons_append, List.cons_append]
    simp only [emaRec]
    rw [hq, ih]

theorem ema_replicate (q : ℚ) (n L : ℕ) :
    ema (List.replicate n q) L = List.replicate n q := by
  cases n with
  | zero => simp [ema]
  | succ m =>
    rw [List.replicate_succ]
    simp only [ema]
    rw [emaRec_replicate]

theorem ema_replicate_concat (q x : ℚ) (n L : ℕ) (h : n ≠ 0) :
    ema (List.replicate n q ++ [x]) L =
      List.replicate n q ++
        [(2 / ((L : ℚ) + 1)) * x + (1 - 2 / ((L : ℚ) + 1)) * q] := by
  cases n with
  | zero => exact absurd rfl h
  | succ m =>
    rw [List.replicate_succ, List.cons_append, List.cons_append]
    simp only [ema]
    rw [emaRec_replicate_concat]

/-- The true range of candle `d` against previous close `pc`. -/
def trOf (d : Candle) (pc : ℚ) : ℚ :=
  max (d.high - d.low) (max |d.high - pc| |d.low - pc|)

theorem trueRangesFrom_replicate (c : Candle) (n : ℕ) :
    trueRangesFrom c.close (List.replicate n c) =
      List.replicate n (trOf c c.close) := by
  induction n with
  | zero => simp [trueRangesFrom]
  | succ m ih =>
    rw [List.replicate_succ]
    simp only [trueRangesFrom]
    rw [ih, trOf, List.replicate_succ]

theorem trueRangesFrom_replicate_concat (c d : Candle) (n : ℕ) :
    trueRangesFrom c.close (List.replicate n c ++ [d]) =
      List.replicate n (trOf c c.close) ++ [trOf d c.close] := by
  induction n with
  | zero => simp [trueRangesFrom, trOf]
  | succ m ih =>
    rw [List.replicate_succ, List.cons_append]
    simp only [trueRangesFrom]
    rw [ih, List.replicate_succ, List.cons_append, ← trOf]

theorem trueRanges_length (df : List Candle) :
    (trueRanges df).length = df.length := by
  cases df with
  | nil => rfl
  | cons c rest =>
    simp only [trueRanges, List.length_cons, Nat.succ_inj]
    induction rest generalizing c with
    | nil => rfl
    | cons d rest ih =>
      simp only [trueRangesFrom, List.length_cons, Nat.succ_inj]
      exact ih d

theorem lastAtrOf_one (df : List Candle) (ys : List ℚ) (y : ℚ)
    (h : trueRanges df = ys ++ [y]) : lastAtrOf df 1 = some y := by
  unfold lastAtrOf atr rollingMean
  rw [h]
  have hlen : (ys ++ [y]).length = ys.length + 1 := by simp
  rw [hlen, List.range_succ, List.map_append, List.getLast?_append]
  simp only [List.map_cons, List.map_nil, List.getLast?_singleton,
    Option.getD_some]
  have hcond : ¬ ys.length + 1 < 1 := by omega
  rw [if_neg hcond]
  have htake : (ys ++ [y]).take (ys.length + 1) = ys ++ [y] := by
    rw [← hlen, List.take_length]
  have hdrop : (ys ++ [y]).drop (ys.length + 1 - 1) = [y] := by
    rw [Nat.add_sub_cancel, List.drop_left]
  rw [htake, hdrop]
  simp

/-- Evaluation lemma for the LONG success path of `detect`: once every gate
condition is established, the returned signal is fully determined. Here `c`,
`m`, `a`, `hi`, `lo` are the last entry close, last fast EMA, last ATR and the
last bar's high/low. -/
theorem detect_long_eval (df15 df1h df4h : List Candle) (sym : String)
    (p : Params) (c m a hi lo : ℚ)
    (h15 : ¬ df15.length < 210) (h1h : ¬ df1h.length < 210)
    (h4h : ¬ df4h.length < 210)
    (hreg : regimeOf (df4h.map Candle.close) p.ema_slow = some "BULL")
    (hbias : biasOf (df1h.map Candle.close) p.ema_slow = "LONG")
    (hc : ilast (df15.map Candle.close) = c)
    (hm : ilast (ema (df15.map Candle.close) p.ema_fast) = m)
    (hhi : ilast (df15.map Candle.high) = hi)
    (hlo : ilast (df15.map Candle.low) = lo)
    (hatr : lastAtrOf df15 p.atr_len = some a)
    (hapos : 0 < a)
    (hpull : |c - m| / max c (1 / 10 ^ 9) ≤ p.pullback_pct ∨ (lo ≤ m ∧ m ≤ hi))
    (hbull : isBullish df15 m)
    (hrisk : 0 < p.atr_mult * a)
    (hscore : minScoreEff p ≤ 70) :
    detect df15 df1h df4h sym p =
      some ⟨sym, "LONG", c, c - p.atr_mult * a,
        c + p.min_rr * (p.atr_mult * a), c + (5 / 2) * (p.atr_mult * a),
        p.min_rr, 70,
        "Aggressive: 4H bull + 1H long + 15m pullback EMA50 + bullish close/reclaim",
        "15m close below EMA50"⟩ := by
  have hguard : ¬ (df15.length < 210 ∨ df1h.length < 210 ∨ df4h.length < 210) := by
    push_neg
    exact ⟨not_lt.mp h15, not_lt.mp h1h, not_lt.mp h4h⟩
  simp only [detect]
  rw [if_neg hguard, hreg]
  simp only [Option.some_bind]
  rw [hbias, if_neg (by simp), hatr]
  simp only [Option.some_bind]
  rw [if_neg (not_le.mpr hapos), hc, hm, hhi, hlo,
    if_neg (not_not_intro hpull), if_pos trivial, if_neg (not_not_intro hbull)]
  have hR : c - (c - p.atr_mult * a) = p.atr_mult * a := sub_sub_cancel c _
  rw [hR, if_neg (not_le.mpr hrisk)]
  have hrrval : (c + p.min_rr * (p.atr_mult * a) - c) / (p.atr_mult * a)
      = p.min_rr := by
    rw [add_sub_cancel_left, mul_div_assoc, div_self (ne_of_gt hrisk), mul_one]
  rw [hrrval, if_neg (lt_irrefl p.min_rr),
    show ((0 : ℤ) + 25 + 20 + 10 + 15) = 70 by norm_num,
    if_neg (not_lt.mpr hscore)]

/-- Evaluation lemma for the SHORT success path of `detect`, the mirror image
of `detect_long_eval`. -/
theorem detect_short_eval (df15 df1h df4h : List Candle) (sym : String)
    (p : Params) (c m a hi lo : ℚ)
    (h15 : ¬ df15.length < 210) (h1h : ¬ df1h.length < 210)
    (h4h : ¬ df4h.length < 210)
    (hreg : regimeOf (df4h.map Candle.close) p.ema_slow = some "BEAR")
    (hbias : biasOf (df1h.map Candle.close) p.ema_slow = "SHORT")
    (hc : ilast (df15.map Candle.close) = c)
    (hm : ilast (ema (df15.map Candle.close) p.ema_fast) = m)
    (hhi : ilast (df15.map Candle.high) = hi)
    (hlo : ilast (df15.map Candle.low) = lo)
    (hatr : lastAtrOf df15 p.atr_len = some a)
    (hapos : 0 < a)
    (hpull : |c - m| / max c (1 / 10 ^ 9) ≤ p.pullback_pct ∨ (lo ≤ m ∧ m ≤ hi))
    (hbear : isBearish df15 m)
    (hrisk : 0 < p.atr_mult * a)
    (hscore : minScoreEff p ≤ 70) :
    detect df15 df1h df4h sym p =
      some ⟨sym, "SHORT", c, c + p.atr_mult * a,
        c - p.min_rr * (p.atr_mult * a), c - (5 / 2) * (p.atr_mult * a),
        p.min_rr, 70,
        "Aggressive: 4H bear + 1H short + 15m pullback EMA50 + bearish close/reject",
        "15m close above EMA50"⟩ := by
  have hguard : ¬ (df15.length < 210 ∨ df1h.length < 210 ∨ df4h.length < 210) := by
    push_neg
    exact ⟨not_lt.mp h15, not_lt.mp h1h, not_lt.mp h4h⟩
  simp only [detect]
  rw [if_neg hguard, hreg]
  simp only [Option.some_bind]
  rw [hbias, if_neg (by simp), hatr]
  simp only [Option.some_bind]
  rw [if_neg (not_le.mpr hapos), hc, hm, hhi, hlo,
    if_neg (not_not_intro hpull), if_neg (by simp), if_neg (not_not_intro hbear)]
  have hR : c + p.atr_mult * a - c = p.atr_mult * a := add_sub_cancel_left c _
  rw [hR, if_neg (not_le.mpr hrisk)]
  have hrrval : (c - (c - p.min_rr * (p.atr_mult * a))) / (p.atr_mult * a)
      = p.min_rr := by
    rw [sub_sub_cancel, mul_div_assoc, div_self (ne_of_gt hrisk), mul_one]
  rw [hrrval, if_neg (lt_irrefl p.min_rr),
    show ((0 : ℤ) + 25 + 20 + 10 + 15) = 70 by norm_num,
    if_neg (not_lt.mpr hscore)]

/-! Concrete scenario: a LONG signal on 210-bar series. `exA15` is a constant
15m series of green candles sitting on their own fast EMA; `riseSeries` closes
at 1 for 209 bars and then at 2, putting the last close above the slow EMA. -/

def candA : Candle := ⟨1, 3, 1, 2⟩

def exA15 : List Candle := List.replicate 210 candA

def riseSeries : List Candle := List.replicate 209 ⟨1, 1, 1, 1⟩ ++ [⟨1, 1, 1, 2⟩]

/-- Parameters with `ema_slow = 300`, so that the hard-coded 210-row guard is
strictly weaker than `ema_slow + 10 = 310`. -/
def pA : Params :=
  { ema_fast := 1, ema_slow := 300, atr_len := 1, atr_mult := 6 / 5,
    pullback_pct := 1 / 125, min_rr := 3 / 2, cooldown_minutes := 15,
    min_score := none }

def sigA : Signal :=
  { symbol := "BTC/USDT:USDT", side := "LONG", entry := 2, sl := -2 / 5,
    tp1 := 28 / 5, tp2 := 8, rr := 3 / 2, score := 70,
    reason := "Aggressive: 4H bull + 1H long + 15m pullback EMA50 + bullish close/reclaim",
    invalidate := "15m close below EMA50" }

theorem exA15_close : exA15.map Candle.close = List.replicate 210 2 := by
  unfold exA15 candA
  rw [List.map_replicate]

theorem exA15_len : exA15.length = 210 := by
  unfold exA15
  rw [List.length_replicate]

theorem riseSeries_len : riseSeries.length = 210 := by
  unfold riseSeries
  rw [List.length_append, List.length_replicate]
  rfl

theorem riseSeries_close :
    riseSeries.map Candle.close = List.replicate 209 1 ++ [2] := by
  unfold riseSeries
  rw [List.map_append, List.map_replicate]
  rfl

theorem regime_rise :
    regimeOf (riseSeries.map Candle.close) 300 = some "BULL" := by
  unfold regimeOf
  rw [riseSeries_close, ema_replicate_concat 1 2 209 300 (by norm_num),
    ilast_concat, ilast_concat]
  rw [if_pos (by norm_num)]

theorem bias_rise : biasOf (riseSeries.map Candle.close) 300 = "LONG" := by
  unfold biasOf
  rw [riseSeries_close, ema_replicate_concat 1 2 209 300 (by norm_num),
    ilast_concat, ilast_concat]
  rw [if_pos (by norm_num)]

theorem exA15_ilast_close : ilast (exA15.map Candle.close) = 2 := by
  rw [exA15_close, ilast_replicate 210 2 (by norm_num)]

theorem exA15_ilast_ema (L : ℕ) :
    ilast (ema (exA15.map Candle.close) L) = 2 := by
  rw [exA15_close, ema_replicate, ilast_replicate 210 2 (by norm_num)]

theorem exA15_ilast_high : ilast (exA15.map Candle.high) = 3 := by
  unfold exA15 candA
  rw [List.map_replicate, ilast_replicate 210 3 (by norm_num)]

theorem exA15_ilast_low : ilast (exA15.map Candle.low) = 1 := by
  unfold exA15 candA
  rw [List.map_replicate, ilast_replicate 210 1 (by norm_num)]

theorem exA15_ilast_opn : ilast (exA15.map Candle.opn) = 1 := by
  unfold exA15 candA
  rw [List.map_replicate, ilast_replicate 210 1 (by norm_num)]

theorem exA15_ilast2_close : ilast2 (exA15.map Candle.close) = 2 := by
  rw [exA15_close, show (210 : ℕ) = 209 + 1 from rfl, List.replicate_succ',
    ilast2_concat, ilast_replicate 209 2 (by norm_num)]

theorem exA15_lastAtr : lastAtrOf exA15 1 = some 2 := by
  have htr : trueRanges exA15 = List.replicate 209 2 ++ [2] := by
    unfold exA15
    rw [show (210 : ℕ) = 209 + 1 from rfl, List.replicate_succ]
    simp only [trueRanges]
    rw [trueRangesFrom_replicate]
    rw [show trOf candA candA.close = 2 by
        unfold trOf candA
        with_unfolding_all decide,
      show candA.high - candA.low = 2 by
        unfold candA
        with_unfolding_all decide]
    rw [← List.replicate_succ, List.replicate_succ']
  exact lastAtrOf_one exA15 _ _ htr

theorem exA15_bullish : isBullish exA15 2 := by
  unfold isBullish
  rw [exA15_ilast_close, exA15_ilast_opn, exA15_ilast2_close]
  refine ⟨by norm_num, Or.inl le_rfl, le_rfl⟩

/-- Full evaluation of the engine on the LONG scenario. -/
theorem detect_exA :
    detect exA15 riseSeries riseSeries "BTC/USDT:USDT" pA = some sigA := by
  rw [detect_long_eval exA15 riseSeries riseSeries "BTC/USDT:USDT" pA 2 2 2 3 1
    (by rw [exA15_len]; norm_num) (by rw [riseSeries_len]; norm_num)
    (by rw [riseSeries_len]; norm_num)
    regime_rise bias_rise exA15_ilast_close (exA15_ilast_ema pA.ema_fast)
    exA15_ilast_high exA15_ilast_low exA15_lastAtr (by norm_num)
    (Or.inl (by with_unfolding_all decide))
    exA15_bullish (by with_unfolding_all decide) (by with_unfolding_all decide)]
  with_unfolding_all decide

/-! Concrete scenario: a SHORT signal whose latest 15m close is below the
source's `1e-9` division floor, so the engine's pullback distance
(`|close − ma| / max(close, 1e-9)`) differs from the spec's
(`|close − ma| / close`). -/

def tin : ℚ := 1 / 10 ^ 10

def cFlatC : Candle := ⟨3 * tin, 3 * tin, 3 * tin, 3 * tin⟩

def cLastC : Candle := ⟨2 * tin, 3 * tin / 2, tin / 2, tin⟩

def exC15 : List Candle := List.replicate 209 cFlatC ++ [cLastC]

def fallSeries : List Candle := List.replicate 209 ⟨2, 2, 2, 2⟩ ++ [⟨2, 2, 2, 1⟩]

def flat1h : List Candle := List.replicate 210 ⟨1, 1, 1, 1⟩

def pC : Params :=
  { ema_fast := 3, ema_slow := 200, atr_len := 1, atr_mult := 1,
    pullback_pct := 1 / 2, min_rr := 3 / 2, cooldown_minutes := 15,
    min_score := some 55 }

theorem exC15_len : exC15.length = 210 := by
  unfold exC15
  rw [List.length_append, List.length_replicate]
  rfl

theorem fallSeries_len : fallSeries.length = 210 := by
  unfold fallSeries
  rw [List.length_append, List.length_replicate]
  rfl

theorem flat1h_len : flat1h.length = 210 := by
  unfold flat1h
  rw [List.length_replicate]

theorem fallSeries_close :
    fallSeries.map Candle.close = List.replicate 209 2 ++ [1] := by
  unfold fallSeries
  rw [List.map_append, List.map_replicate]
  rfl

theorem regime_fall :
    regimeOf (fallSeries.map Candle.close) 200 = some "BEAR" := by
  unfold regimeOf
  rw [fallSeries_close, ema_replicate_concat 2 1 209 200 (by norm_num),
    ilast_concat, ilast_concat]
  rw [if_neg (by norm_num), if_pos (by norm_num)]

theorem flat1h_close : flat1h.map Candle.close = List.replicate 210 1 := by
  unfold flat1h
  rw [List.map_replicate]

theorem bias_flat (L : ℕ) : biasOf (flat1h.map Candle.close) L = "SHORT" := by
  unfold biasOf
  rw [flat1h_close, ema_replicate, ilast_replicate 210 1 (by norm_num)]
  rw [if_neg (by norm_num)]

theorem exC15_close :
    exC15.map Candle.close = List.replicate 209 (3 * tin) ++ [tin] := by
  unfold exC15 cFlatC cLastC
  rw [List.map_append, List.map_replicate]
  rfl

theorem exC15_ilast_close : ilast (exC15.map Candle.close) = tin := by
  rw [exC15_close, ilast_concat]

theorem exC15_ilast2_close : ilast2 (exC15.map Candle.close) = 3 * tin := by
  rw [exC15_close, ilast2_concat, ilast_replicate 209 (3 * tin) (by norm_num)]

theorem exC15_ilast_ema : ilast (ema (exC15.map Candle.close) 3) = 2 * tin := by
  rw [exC15_close, ema_replicate_concat (3 * tin) tin 209 3 (by norm_num),
    ilast_concat]
  rw [tin]
  norm_num

theorem exC15_ilast_high : ilast (exC15.map Candle.high) = 3 * tin / 2 := by
  unfold exC15 cFlatC cLastC
  rw [List.map_append, List.map_replicate]
  exact ilast_concat _ _

theorem exC15_ilast_low : ilast (exC15.map Candle.low) = tin / 2 := by
  unfold exC15 cFlatC cLastC
  rw [List.map_append, List.map_replicate]
  exact ilast_concat _ _

theorem exC15_ilast_opn : ilast (exC15.map Candle.opn) = 2 * tin := by
  unfold exC15 cFlatC cLastC
  rw [List.map_append, List.map_replicate]
  exact ilast_concat _ _

theorem trOf_cFlatC : trOf cFlatC cFlatC.close = 0 := by
  unfold trOf cFlatC
  simp

theorem trOf_cLastC : trOf cLastC cFlatC.close = 5 * tin / 2 := by
  have htin : (0 : ℚ) < tin := by norm_num [tin]
  unfold trOf cLastC cFlatC
  rw [show (3 : ℚ) * tin / 2 - tin / 2 = tin by ring,
    show (3 : ℚ) * tin / 2 - 3 * tin = -(3 * tin / 2) by ring, abs_neg,
    show tin / 2 - 3 * tin = -(5 * tin / 2) by ring, abs_neg,
    abs_of_nonneg (by linarith : (0 : ℚ) ≤ 3 * tin / 2),
    abs_of_nonneg (by linarith : (0 : ℚ) ≤ 5 * tin / 2),
    max_eq_right (by linarith : (3 : ℚ) * tin / 2 ≤ 5 * tin / 2),
    max_eq_right (by linarith : tin ≤ 5 * tin / 2)]

theorem exC15_lastAtr : lastAtrOf exC15 1 = some (5 * tin / 2) := by
  have htr : trueRanges exC15 =
      (0 :: List.replicate 208 0) ++ [5 * tin / 2] := by
    unfold exC15
    rw [show (209 : ℕ) = 208 + 1 from rfl, List.replicate_succ,
      List.cons_append]
    simp only [trueRanges]
    rw [trueRangesFrom_replicate_concat, trOf_cFlatC, trOf_cLastC,
      show cFlatC.high - cFlatC.low = 0 by unfold cFlatC; ring]
    rw [List.cons_append]
  exact lastAtrOf_one exC15 _ _ htr

theorem exC15_bearish : isBearish exC15 (2 * tin) := by
  unfold isBearish
  rw [exC15_ilast_close, exC15_ilast_opn, exC15_ilast2_close]
  refine ⟨by rw [tin]; norm_num, Or.inl (by rw [tin]; norm_num),
    by rw [tin]; norm_num⟩

def sigC : Signal :=
  { symbol := "ETH/USDT:USDT", side := "SHORT", entry := tin,
    sl := 7 * tin / 2, tp1 := -11 * tin / 4, tp2 := -21 * tin / 4, rr := 3 / 2,
    score := 70,
    reason := "Aggressive: 4H bear + 1H short + 15m pullback EMA50 + bearish close/reject",
    invalidate := "15m close above EMA50" }

/-- Full evaluation of the engine on the tiny-close SHORT scenario: the signal
is accepted (through the `max(close, 1e-9)` denominator). -/
theorem detect_exC :
    detect exC15 flat1h fallSeries "ETH/USDT:USDT" pC = some sigC := by
  have htin : (0 : ℚ) < tin := by norm_num [tin]
  have hpull : |tin - 2 * tin| / max tin (1 / 10 ^ 9) ≤ pC.pullback_pct := by
    rw [show tin - 2 * tin = -tin by ring, abs_neg, abs_of_nonneg htin.le,
      max_eq_right (by norm_num [tin] : tin ≤ 1 / 10 ^ 9)]
    norm_num [tin, pC]
  rw [detect_short_eval exC15 flat1h fallSeries "ETH/USDT:USDT" pC
    tin (2 * tin) (5 * tin / 2) (3 * tin / 2) (tin / 2)
    (by rw [exC15_len]; norm_num) (by rw [flat1h_len]; norm_num)
    (by rw [fallSeries_len]; norm_num)
    regime_fall (bias_flat 200) exC15_ilast_close exC15_ilast_ema
    exC15_ilast_high exC15_ilast_low exC15_lastAtr
    (by linarith) (Or.inl hpull) exC15_bearish
    (by norm_num [pC, tin]) (by norm_num [minScoreEff, pC])]
  simp only [pC, sigC, Option.some.injEq, Signal.mk.injEq, true_and, and_true]
  refine ⟨by ring, by ring, by ring⟩

/-- C1 (amended): the data-sufficiency guard of `detect` is the hard-coded
constant 210 (equal to `ema_slow + 10` only for the configured
`ema_slow = 200`): whenever any of the three series has fewer than 210 bars,
`detect` returns no signal, for every parameter bundle. -/
theorem detect_short_series_none (df15 df1h df4h : List Candle) (sym : String)
    (p : Params)
    (h : df15.length < 210 ∨ df1h.length < 210 ∨ df4h.length < 210) :
    detect df15 df1h df4h sym p = none := by
  simp only [detect]
  rw [if_pos h]

/-- C1 (counterexample): with `ema_slow = 300` every series has fewer than
`ema_slow + 10 = 310` bars, yet `detect` returns a signal — the guard is not
`ema_slow + 10`. -/
theorem detect_signal_below_emaslow_plus_ten :
    exA15.length < pA.ema_slow + 10 ∧ riseSeries.length < pA.ema_slow + 10
      ∧ (detect exA15 riseSeries riseSeries "BTC/USDT:USDT" pA).isSome = true := by
  refine ⟨?_, ?_, ?_⟩
  · rw [exA15_len]
    norm_num [pA]
  · rw [riseSeries_len]
    norm_num [pA]
  · rw [detect_exA]
    rfl

/-- C1 (witness): the guard fires on empty series. -/
theorem detect_short_series_none_witness :
    detect [] [] [] "BTC/USDT:USDT" pA = none :=
  detect_short_series_none [] [] [] "BTC/USDT:USDT" pA (Or.inl (by norm_num))

/-- C7 (confirmed): on a constant-price series of length at least the length
parameter, the exponentially weighted moving average equals that constant at
every index (exactly, in rational arithmetic). -/
theorem ema_constant_series (q : ℚ) (n L : ℕ) (_hL : 1 ≤ L) (_hn : L ≤ n) :
    ema (List.replicate n q) L = List.replicate n q :=
  ema_replicate q n L

/-- C7 (witness). -/
theorem ema_constant_series_witness :
    ema (List.replicate 5 (7 : ℚ)) 3 = List.replicate 5 (7 : ℚ) :=
  ema_constant_series 7 5 3 (by norm_num) (by norm_num)

/-- C4 (confirmed): on the regime series the engine classifies BULL exactly
when the last close is strictly above the last slow EMA, BEAR exactly when
strictly below, and on exact equality `detect` returns no signal. -/
theorem regime_classification (df15 df1h df4h : List Candle) (sym : String)
    (p : Params) :
    (regimeOf (df4h.map Candle.close) p.ema_slow = some "BULL"
        ↔ ilast (ema (df4h.map Candle.close) p.ema_slow)
            < ilast (df4h.map Candle.close))
  ∧ (regimeOf (df4h.map Candle.close) p.ema_slow = some "BEAR"
        ↔ ilast (df4h.map Candle.close)
            < ilast (ema (df4h.map Candle.close) p.ema_slow))
  ∧ (ilast (df4h.map Candle.close)
        = ilast (ema (df4h.map Candle.close) p.ema_slow)
        → detect df15 df1h df4h sym p = none) := by
  refine ⟨?_, ?_, ?_⟩
  · unfold regimeOf
    split_ifs with h1 h2
    · exact iff_of_true rfl h1
    · exact iff_of_false (by simp) h1
    · exact iff_of_false (by simp) h1
  · unfold regimeOf
    split_ifs with h1 h2
    · exact iff_of_false (by simp) (fun hc => h1.not_lt hc)
    · exact iff_of_true rfl h2
    · exact iff_of_false (by simp) h2
  · intro h
    have hr : regimeOf (df4h.map Candle.close) p.ema_slow = none := by
      unfold regimeOf
      rw [if_neg (by rw [h]; exact lt_irrefl _),
        if_neg (by rw [h]; exact lt_irrefl _)]
    simp only [detect, hr, Option.none_bind]
    split <;> rfl

/-- C4 (witness): a constant regime series makes the last close equal the last
slow EMA, and the engine rejects. -/
theorem regime_classification_witness :
    detect exA15 flat1h flat1h "BTC/USDT:USDT" pA = none :=
  (regime_classification exA15 flat1h flat1h "BTC/USDT:USDT" pA).2.2
    (by rw [flat1h_close, ema_replicate, ilast_replicate 210 1 (by norm_num)])

set_option maxHeartbeats 1000000 in
/-- C5 (confirmed): whenever the computed regime is BULL while the computed
bias is SHORT, or the regime is BEAR while the bias is LONG, `detect` returns
no signal, regardless of every entry-timeframe condition. -/
theorem alignment_gate_none (df15 df1h df4h : List Candle) (sym : String)
    (p : Params)
    (h : (regimeOf (df4h.map Candle.close) p.ema_slow = some "BULL"
            ∧ biasOf (df1h.map Candle.close) p.ema_slow = "SHORT")
       ∨ (regimeOf (df4h.map Candle.close) p.ema_slow = some "BEAR"
            ∧ biasOf (df1h.map Candle.close) p.ema_slow = "LONG")) :
    detect df15 df1h df4h sym p = none := by
  by_cases hg : df15.length < 210 ∨ df1h.length < 210 ∨ df4h.length < 210
  · simp only [detect]
    rw [if_pos hg]
  · simp only [detect]
    rw [if_neg hg]
    rcases h with ⟨hr, hb⟩ | ⟨hr, hb⟩ <;>
      rw [hr] <;> simp only [Option.some_bind] <;> rw [hb, if_pos (by simp)]

/-- C5 (witness): bullish regime series against a flat (hence SHORT-bias) bias
series is rejected. -/
theorem alignment_gate_none_witness :
    detect exA15 flat1h riseSeries "BTC/USDT:USDT" pA = none :=
  alignment_gate_none exA15 flat1h riseSeries "BTC/USDT:USDT" pA
    (Or.inl ⟨regime_rise, bias_flat 300⟩)

/-- C9 (confirmed): for a positive window, a cooldown check that returns
allowed records the current time under the key; a second check on the same key
strictly before the window has elapsed returns not-allowed and leaves the whole
cache unchanged; a check at least the window after the recorded time returns
allowed again. -/
theorem cooldown_window (c0 : Cache) (k : String) (w t1 t2 t3 : ℤ)
    (_hw : 0 < w) (h1 : (cooldown_ok c0 k w t1).1 = true) :
    cacheGet (cooldown_ok c0 k w t1).2 k = t1
  ∧ (t2 - t1 < w * 60 →
      cooldown_ok (cooldown_ok c0 k w t1).2 k w t2
        = (false, (cooldown_ok c0 k w t1).2))
  ∧ (w * 60 ≤ t3 - t1 →
      (cooldown_ok (cooldown_ok c0 k w t1).2 k w t3).1 = true) := by
  by_cases hfirst : t1 - cacheGet c0 k < w * 60
  · exact absurd h1 (by simp [cooldown_ok, hfirst])
  · have hc1 : (cooldown_ok c0 k w t1).2 = (k, t1) :: c0 := by
      simp [cooldown_ok, hfirst]
    have hget : cacheGet ((k, t1) :: c0) k = t1 := by
      simp [cacheGet]
    refine ⟨by rw [hc1]; exact hget, ?_, ?_⟩
    · intro h2
      rw [hc1]
      simp only [cooldown_ok, hget]
      rw [if_pos h2]
    · intro h3
      rw [hc1]
      simp only [cooldown_ok, hget]
      rw [if_neg (by omega)]

/-- C9 (witness): window 15 minutes, allowed at time 1000, blocked at 1500,
allowed again at 1900. -/
theorem cooldown_window_witness :
    cacheGet (cooldown_ok [] "BTC/USDT:USDT:LONG" 15 1000).2 "BTC/USDT:USDT:LONG" = 1000
  ∧ cooldown_ok (cooldown_ok [] "BTC/USDT:USDT:LONG" 15 1000).2 "BTC/USDT:USDT:LONG" 15 1500
      = (false, (cooldown_ok [] "BTC/USDT:USDT:LONG" 15 1000).2)
  ∧ (cooldown_ok (cooldown_ok [] "BTC/USDT:USDT:LONG" 15 1000).2 "BTC/USDT:USDT:LONG" 15 1900).1
      = true := by
  obtain ⟨a, b, c⟩ :=
    cooldown_window [] "BTC/USDT:USDT:LONG" 15 1000 1500 1900 (by norm_num)
      (by simp [cooldown_ok, cacheGet])
  exact ⟨a, b (by norm_num), c (by norm_num)⟩

/-- C8 (counterexample): `ETHBTC` is a compact `BASEQUOTE` alias (base ETH,
quote BTC), yet the normalizer raises instead of converting it; and `A/B`,
which is neither canonical `BASE/QUOTE:SETTLE` notation nor a compact alias,
is returned unchanged instead of being rejected. -/
theorem normalize_symbol_counterexample :
    normalize_symbol "ETHBTC" = .error "Unsupported symbol format: ETHBTC"
  ∧ normalize_symbol "A/B" = .ok "A/B" := by
  constructor <;> decide

/-- C8 (amended): for an input that is already stripped and upper-case, the
normalizer returns any string containing `/` unchanged, converts a compact
alias ending in `USDT` (longer than 4 characters) to `BASE/USDT:USDT`, and
raises an error naming the offending input for every other string. -/
theorem normalize_symbol_amended (s : String)
    (hs : pyUpper (pyStrip s) = s) :
    (s.data.contains '/' = true → normalize_symbol s = .ok s)
  ∧ (s.data.contains '/' = false →
      "USDT".data.isSuffixOf s.data = true → 4 < s.data.length →
      normalize_symbol s = .ok (⟨s.data.take (s.data.length - 4)⟩ ++ "/USDT:USDT"))
  ∧ (s.data.contains '/' = false →
      ¬ ("USDT".data.isSuffixOf s.data = true ∧ 4 < s.data.length) →
      normalize_symbol s = .error ("Unsupported symbol format: " ++ s)) := by
  refine ⟨?_, ?_, ?_⟩
  · intro hslash
    simp only [normalize_symbol, hs]
    rw [if_pos hslash]
  · intro hslash hend hlen
    simp only [normalize_symbol, hs]
    rw [if_neg (by rw [hslash]; exact Bool.false_ne_true), if_pos ⟨hend, hlen⟩]
  · intro hslash hrest
    simp only [normalize_symbol, hs]
    rw [if_neg (by rw [hslash]; exact Bool.false_ne_true), if_neg hrest]

/-- C8 (witness): `BTCUSDT` converts to `BTC/USDT:USDT`. -/
theorem normalize_symbol_amended_witness :
    normalize_symbol "BTCUSDT" = .ok "BTC/USDT:USDT" := by
  have h := (normalize_symbol_amended "BTCUSDT" (by decide)).2.1
    (by decide) (by decide) (by decide)
  rw [h]
  decide

theorem trueRangesFrom_nonneg (pc : ℚ) (l : List Candle) :
    ∀ x ∈ trueRangesFrom pc l, 0 ≤ x := by
  induction l generalizing pc with
  | nil =>
    intro x hx
    simp [trueRangesFrom] at hx
  | cons c rest ih =>
    intro x hx
    simp only [trueRangesFrom, List.mem_cons] at hx
    rcases hx with rfl | hx
    · exact le_trans (abs_nonneg _)
        (le_trans (le_max_left _ _) (le_max_right _ _))
    · exact ih c.close x hx

theorem trueRanges_nonneg (df : List Candle)
    (hhead : ∀ c0, df.head? = some c0 → c0.low ≤ c0.high) :
    ∀ x ∈ trueRanges df, 0 ≤ x := by
  cases df with
  | nil =>
    intro x hx
    simp [trueRanges] at hx
  | cons c rest =>
    intro x hx
    simp only [trueRanges, List.mem_cons] at hx
    rcases hx with rfl | hx
    · have := hhead c rfl
      linarith
    · exact trueRangesFrom_nonneg c.close rest x hx

theorem atr_getElem? (df : List Candle) (L i : ℕ) (hi : i < df.length) :
    (atr df L)[i]? = some (if i + 1 < L then none
      else some ((((trueRanges df).take (i + 1)).drop (i + 1 - L)).sum
        / (L : ℚ))) := by
  unfold atr rollingMean
  rw [trueRanges_length, List.getElem?_map]
  have hr : (List.range df.length)[i]? = some i := by
    simp [List.getElem?_range, hi]
  rw [hr]
  rfl

/-- C2 (amended): for `length = L ≥ 1` the ATR series is undefined at exactly
the first `L − 1` positions and defined from position `L − 1` on; the first
bar's true range is `high − low` (pandas' row-wise max skips the NaN terms
coming from the missing previous close), so every defined ATR value is
non-negative provided the first bar has `low ≤ high`; and `detect` returns no
signal whenever the most recent ATR value is undefined or non-positive. -/
theorem atr_definedness (df : List Candle) (L : ℕ) (_hL : 1 ≤ L) :
    (∀ i, i < df.length → i + 1 < L → (atr df L)[i]? = some none)
  ∧ (∀ i, i < df.length → L ≤ i + 1 →
      ∃ v, (atr df L)[i]? = some (some v)
        ∧ ((∀ c0, df.head? = some c0 → c0.low ≤ c0.high) → 0 ≤ v))
  ∧ (∀ df15 df1h df4h sym p,
      (lastAtrOf df15 p.atr_len = none
        ∨ ∃ a, lastAtrOf df15 p.atr_len = some a ∧ a ≤ 0) →
      detect df15 df1h df4h sym p = none) := by
  refine ⟨?_, ?_, ?_⟩
  · intro i hi hiL
    rw [atr_getElem? df L i hi, if_pos hiL]
  · intro i hi hLe
    rw [atr_getElem? df L i hi, if_neg (by omega)]
    refine ⟨_, rfl, ?_⟩
    intro hhead
    refine div_nonneg (List.sum_nonneg ?_) (by positivity)
    intro x hx
    exact trueRanges_nonneg df hhead x
      ((List.take_sublist _ _).mem ((List.drop_sublist _ _).mem hx))
  · intro df15 df1h df4h sym p hbad
    by_cases hg : df15.length < 210 ∨ df1h.length < 210 ∨ df4h.length < 210
    · simp only [detect]
      rw [if_pos hg]
    · simp only [detect]
      rw [if_neg hg]
      cases hreg : regimeOf (df4h.map Candle.close) p.ema_slow with
      | none => rfl
      | some r =>
        simp only [Option.some_bind]
        by_cases halign : (r = "BULL" ∧ ¬ biasOf (df1h.map Candle.close) p.ema_slow = "LONG")
            ∨ (r = "BEAR" ∧ ¬ biasOf (df1h.map Candle.close) p.ema_slow = "SHORT")
        · rw [if_pos halign]
        · rw [if_neg halign]
          rcases hbad with hnone | ⟨a, ha, hle⟩
          · rw [hnone]
            rfl
          · rw [ha]
            simp only [Option.some_bind]
            rw [if_pos hle]

/-- C2 (counterexample): with `length = 1` the ATR of a single-bar series is
already defined at position 0 — the first bar's true range is `high − low` —
contradicting the claim that the first `length` positions (and the first bar
in particular) carry no value. -/
theorem atr_first_bar_defined : atr [⟨1, 3, 1, 2⟩] 1 = [some 2] := by
  with_unfolding_all decide

/-- C2 (witness): with `length = 2`, position 0 of the ATR series is undefined. -/
theorem atr_definedness_witness :
    (atr [(⟨1, 3, 1, 2⟩ : Candle), ⟨2, 5, 2, 4⟩] 2)[0]? = some none :=
  (atr_definedness [⟨1, 3, 1, 2⟩, ⟨2, 5, 2, 4⟩] 2 (by norm_num)).1 0
    (by norm_num) (by norm_num)

set_option maxHeartbeats 1000000 in
/-- Inversion of `detect`: every accepted signal arises from one of the two
success branches, with a positive risk, `rr` equal exactly to `min_rr`, score
exactly 70 and a score gate that did not fire. -/
theorem detect_some_cases (df15 df1h df4h : List Candle) (sym : String)
    (p : Params) (sig : Signal)
    (h : detect df15 df1h df4h sym p = some sig) :
    ∃ a, lastAtrOf df15 p.atr_len = some a ∧ 0 < p.atr_mult * a
      ∧ ¬ 70 < minScoreEff p
      ∧ (sig = ⟨sym, "LONG", ilast (df15.map Candle.close),
            ilast (df15.map Candle.close) - p.atr_mult * a,
            ilast (df15.map Candle.close) + p.min_rr * (p.atr_mult * a),
            ilast (df15.map Candle.close) + (5 / 2) * (p.atr_mult * a),
            p.min_rr, 70,
            "Aggressive: 4H bull + 1H long + 15m pullback EMA50 + bullish close/reclaim",
            "15m close below EMA50"⟩
        ∨ sig = ⟨sym, "SHORT", ilast (df15.map Candle.close),
            ilast (df15.map Candle.close) + p.atr_mult * a,
            ilast (df15.map Candle.close) - p.min_rr * (p.atr_mult * a),
            ilast (df15.map Candle.close) - (5 / 2) * (p.atr_mult * a),
            p.min_rr, 70,
            "Aggressive: 4H bear + 1H short + 15m pullback EMA50 + bearish close/reject",
            "15m close above EMA50"⟩) := by
  by_cases hg : df15.length < 210 ∨ df1h.length < 210 ∨ df4h.length < 210
  · simp only [detect] at h
    rw [if_pos hg] at h
    exact absurd h (by simp)
  · simp only [detect] at h
    rw [if_neg hg] at h
    cases hreg : regimeOf (df4h.map Candle.close) p.ema_slow with
    | none =>
      rw [hreg] at h
      exact absurd h (by simp)
    | some r =>
      rw [hreg] at h
      simp only [Option.some_bind] at h
      by_cases halign : (r = "BULL"
            ∧ ¬ biasOf (df1h.map Candle.close) p.ema_slow = "LONG")
          ∨ (r = "BEAR"
            ∧ ¬ biasOf (df1h.map Candle.close) p.ema_slow = "SHORT")
      · rw [if_pos halign] at h
        exact absurd h (by simp)
      · rw [if_neg halign] at h
        cases hatr : lastAtrOf df15 p.atr_len with
        | none =>
          rw [hatr] at h
          exact absurd h (by simp)
        | some a =>
          rw [hatr] at h
          simp only [Option.some_bind] at h
          by_cases hapos : a ≤ 0
          · rw [if_pos hapos] at h
            exact absurd h (by simp)
          · rw [if_neg hapos] at h
            by_cases hpull : ¬ (|ilast (df15.map Candle.close)
                  - ilast (ema (df15.map Candle.close) p.ema_fast)|
                    / max (ilast (df15.map Candle.close)) (1 / 10 ^ 9)
                  ≤ p.pullback_pct
                ∨ (ilast (df15.map Candle.low)
                      ≤ ilast (ema (df15.map Candle.close) p.ema_fast)
                    ∧ ilast (ema (df15.map Candle.close) p.ema_fast)
                      ≤ ilast (df15.map Candle.high)))
            · rw [if_pos hpull] at h
              exact absurd h (by simp)
            · rw [if_neg hpull] at h
              by_cases hregBull : r = "BULL"
              · rw [if_pos hregBull] at h
                by_cases hbull : ¬ isBullish df15
                    (ilast (ema (df15.map Candle.close) p.ema_fast))
                · rw [if_pos hbull] at h
                  exact absurd h (by simp)
                · rw [if_neg hbull] at h
                  by_cases hrisk : ilast (df15.map Candle.close)
                      - (ilast (df15.map Candle.close) - p.atr_mult * a) ≤ 0
                  · rw [if_pos hrisk] at h
                    exact absurd h (by simp)
                  · have hriskpos : 0 < p.atr_mult * a := by
                      have := not_le.mp hrisk
                      linarith
                    rw [if_neg hrisk, sub_sub_cancel] at h
                    rw [show (ilast (df15.map Candle.close)
                          + p.min_rr * (p.atr_mult * a)
                          - ilast (df15.map Candle.close))
                            / (p.atr_mult * a) = p.min_rr by
                        rw [add_sub_cancel_left, mul_div_assoc,
                          div_self (ne_of_gt hriskpos), mul_one]] at h
                    rw [if_neg (lt_irrefl p.min_rr),
                      show ((0 : ℤ) + 25 + 20 + 10 + 15) = 70 by norm_num] at h
                    by_cases hscore : (70 : ℤ) < minScoreEff p
                    · rw [if_pos hscore] at h
                      exact absurd h (by simp)
                    · rw [if_neg hscore] at h
                      exact ⟨a, rfl, hriskpos, hscore,
                        Or.inl (Option.some.inj h).symm⟩
              · rw [if_neg hregBull] at h
                by_cases hbear : ¬ isBearish df15
                    (ilast (ema (df15.map Candle.close) p.ema_fast))
                · rw [if_pos hbear] at h
                  exact absurd h (by simp)
                · rw [if_neg hbear] at h
                  by_cases hrisk : ilast (df15.map Candle.close)
                      + p.atr_mult * a - ilast (df15.map Candle.close) ≤ 0
                  · rw [if_pos hrisk] at h
                    exact absurd h (by simp)
                  · have hriskpos : 0 < p.atr_mult * a := by
                      have := not_le.mp hrisk
                      linarith
                    rw [if_neg hrisk, add_sub_cancel_left] at h
                    rw [show (ilast (df15.map Candle.close)
                          - (ilast (df15.map Candle.close)
                            - p.min_rr * (p.atr_mult * a)))
                            / (p.atr_mult * a) = p.min_rr by
                        rw [sub_sub_cancel, mul_div_assoc,
                          div_self (ne_of_gt hriskpos), mul_one]] at h
                    rw [if_neg (lt_irrefl p.min_rr),
                      show ((0 : ℤ) + 25 + 20 + 10 + 15) = 70 by norm_num] at h
                    by_cases hscore : (70 : ℤ) < minScoreEff p
                    · rw [if_pos hscore] at h
                      exact absurd h (by simp)
                    · rw [if_neg hscore] at h
                      exact ⟨a, rfl, hriskpos, hscore,
                        Or.inr (Option.some.inj h).symm⟩

/-- C3 (confirmed): given the spec's parameter-bundle constraint
`minRiskReward > 0`, every accepted LONG signal satisfies
`tp1 > entry > stop` and `rr ≥ minRiskReward`, every accepted SHORT signal
satisfies `tp1 < entry < stop` and `rr ≥ minRiskReward`, and the entry price is
always the latest close of the entry-timeframe series. -/
theorem signal_risk_plan (df15 df1h df4h : List Candle) (sym : String)
    (p : Params) (sig : Signal) (hrr : 0 < p.min_rr)
    (h : detect df15 df1h df4h sym p = some sig) :
    sig.entry = ilast (df15.map Candle.close)
  ∧ (sig.side = "LONG" →
      sig.tp1 > sig.entry ∧ sig.entry > sig.sl ∧ sig.rr ≥ p.min_rr)
  ∧ (sig.side = "SHORT" →
      sig.tp1 < sig.entry ∧ sig.entry < sig.sl ∧ sig.rr ≥ p.min_rr) := by
  obtain ⟨a, hatr, hriskpos, hscore, hcase | hcase⟩ :=
    detect_some_cases df15 df1h df4h sym p sig h
  · subst hcase
    refine ⟨rfl, ?_, ?_⟩
    · intro _
      have hmul := mul_pos hrr hriskpos
      refine ⟨?_, ?_, le_rfl⟩
      · show ilast (df15.map Candle.close) + p.min_rr * (p.atr_mult * a)
            > ilast (df15.map Candle.close)
        linarith
      · show ilast (df15.map Candle.close)
            > ilast (df15.map Candle.close) - p.atr_mult * a
        linarith
    · intro hcon
      simp at hcon
  · subst hcase
    refine ⟨rfl, ?_, ?_⟩
    · intro hcon
      simp at hcon
    · intro _
      have hmul := mul_pos hrr hriskpos
      refine ⟨?_, ?_, le_rfl⟩
      · show ilast (df15.map Candle.close) - p.min_rr * (p.atr_mult * a)
            < ilast (df15.map Candle.close)
        linarith
      · show ilast (df15.map Candle.close)
            < ilast (df15.map Candle.close) + p.atr_mult * a
        linarith

/-- C3 (witness): the LONG scenario signal satisfies the risk-plan contract. -/
theorem signal_risk_plan_witness :
    sigA.entry = ilast (exA15.map Candle.close)
  ∧ (sigA.side = "LONG" →
      sigA.tp1 > sigA.entry ∧ sigA.entry > sigA.sl ∧ sigA.rr ≥ pA.min_rr)
  ∧ (sigA.side = "SHORT" →
      sigA.tp1 < sigA.entry ∧ sigA.entry < sigA.sl ∧ sigA.rr ≥ pA.min_rr) :=
  signal_risk_plan exA15 riseSeries riseSeries "BTC/USDT:USDT" pA sigA
    (by norm_num [pA]) detect_exA

/-- C10 (confirmed): every signal returned by `detect` carries score exactly
70 = 25 + 20 + 10 + 15 and rr exactly equal to `min_rr` (in exact rational
arithmetic), so the final rr gate never rejects; and whenever the configured
minimum score exceeds 70, `detect` returns no signal at all. -/
theorem score_and_rr_exact (df15 df1h df4h : List Candle) (sym : String)
    (p : Params) :
    (∀ sig, detect df15 df1h df4h sym p = some sig →
        sig.score = 70 ∧ sig.rr = p.min_rr)
  ∧ ((70 : ℤ) < minScoreEff p → detect df15 df1h df4h sym p = none) := by
  constructor
  · intro sig h
    obtain ⟨a, _, _, _, hcase | hcase⟩ :=
      detect_some_cases df15 df1h df4h sym p sig h <;>
      subst hcase <;> exact ⟨rfl, rfl⟩
  · intro hms
    cases hdet : detect df15 df1h df4h sym p with
    | none => rfl
    | some sig =>
      obtain ⟨a, _, _, hscore, _⟩ :=
        detect_some_cases df15 df1h df4h sym p sig hdet
      exact absurd hms hscore

/-- The configured parameters with a minimum score of 80 (above the attainable
70). -/
def pA80 : Params := { pA with min_score := some 80 }

/-- C10 (witness): the LONG scenario signal has score 70 and rr = min_rr; the
same inputs with `min_score = 80` produce no signal. -/
theorem score_and_rr_exact_witness :
    (sigA.score = 70 ∧ sigA.rr = pA.min_rr)
  ∧ detect exA15 riseSeries riseSeries "BTC/USDT:USDT" pA80 = none :=
  ⟨(score_and_rr_exact exA15 riseSeries riseSeries "BTC/USDT:USDT" pA).1
      sigA detect_exA,
   (score_and_rr_exact exA15 riseSeries riseSeries "BTC/USDT:USDT" pA80).2
      (by norm_num [minScoreEff, pA80])⟩

/-- C6 (counterexample): the entry series `exC15` has a positive latest close
(10⁻¹⁰); its claim-side pullback distance `|close − ma| / close` equals 1,
far above `pullback_pct = 1/2`, and no wick touches the fast EMA — yet
`detect` returns a signal, because the source divides by `max(close, 1e-9)`
rather than by `close`. -/
theorem pullback_gate_counterexample :
    0 < ilast (exC15.map Candle.close)
  ∧ ¬ (|ilast (exC15.map Candle.close)
        - ilast (ema (exC15.map Candle.close) pC.ema_fast)|
          / ilast (exC15.map Candle.close) ≤ pC.pullback_pct)
  ∧ ¬ (ilast (exC15.map Candle.low)
          ≤ ilast (ema (exC15.map Candle.close) pC.ema_fast)
        ∧ ilast (ema (exC15.map Candle.close) pC.ema_fast)
          ≤ ilast (exC15.map Candle.high))
  ∧ (detect exC15 flat1h fallSeries "ETH/USDT:USDT" pC).isSome = true := by
  have htin : (0 : ℚ) < tin := by norm_num [tin]
  have hef : pC.ema_fast = 3 := rfl
  have hpp : pC.pullback_pct = 1 / 2 := rfl
  refine ⟨?_, ?_, ?_, ?_⟩
  · rw [exC15_ilast_close]
    exact htin
  · rw [exC15_ilast_close, hef, exC15_ilast_ema, hpp,
      show tin - 2 * tin = -tin by ring, abs_neg, abs_of_nonneg htin.le,
      div_self (ne_of_gt htin)]
    norm_num
  · rw [exC15_ilast_low, hef, exC15_ilast_ema, exC15_ilast_high]
    rintro ⟨-, h2⟩
    linarith
  · rw [detect_exC]
    rfl

/-- C6 (amended): the pullback gate divides by `max(close, 1e-9)` rather than
by `close`: whenever `|close − ma| / max(close, 1e-9) > pullbackPct` and the
last bar's low-high range does not straddle the fast EMA value, `detect`
returns no signal. For a latest close of at least `1e-9` the denominator
equals `close`, so there the original claim holds as stated. -/
theorem pullback_gate_none (df15 df1h df4h : List Candle) (sym : String)
    (p : Params)
    (hnear : ¬ (|ilast (df15.map Candle.close)
        - ilast (ema (df15.map Candle.close) p.ema_fast)|
          / max (ilast (df15.map Candle.close)) (1 / 10 ^ 9)
        ≤ p.pullback_pct))
    (hwick : ¬ (ilast (df15.map Candle.low)
          ≤ ilast (ema (df15.map Candle.close) p.ema_fast)
        ∧ ilast (ema (df15.map Candle.close) p.ema_fast)
          ≤ ilast (df15.map Candle.high))) :
    detect df15 df1h df4h sym p = none := by
  by_cases hg : df15.length < 210 ∨ df1h.length < 210 ∨ df4h.length < 210
  · simp only [detect]
    rw [if_pos hg]
  · simp only [detect]
    rw [if_neg hg]
    cases hreg : regimeOf (df4h.map Candle.close) p.ema_slow with
    | none => rfl
    | some r =>
      simp only [Option.some_bind]
      by_cases halign : (r = "BULL"
            ∧ ¬ biasOf (df1h.map Candle.close) p.ema_slow = "LONG")
          ∨ (r = "BEAR"
            ∧ ¬ biasOf (df1h.map Candle.close) p.ema_slow = "SHORT")
      · rw [if_pos halign]
      · rw [if_neg halign]
        cases hatr : lastAtrOf df15 p.atr_len with
        | none => rfl
        | some a =>
          simp only [Option.some_bind]
          by_cases hapos : a ≤ 0
          · rw [if_pos hapos]
          · rw [if_neg hapos, if_pos (not_or.mpr ⟨hnear, hwick⟩)]

/-- The tiny-close parameters with a tighter pullback tolerance of 1%. -/
def pD : Params := { pC with pullback_pct := 1 / 100 }

/-- C6 (witness): with a 1% tolerance the tiny-close entry series fails both
the distance and the wick condition, and the engine rejects. -/
theorem pullback_gate_none_witness :
    detect exC15 flat1h fallSeries "ETH/USDT:USDT" pD = none :=
  pullback_gate_none exC15 flat1h fallSeries "ETH/USDT:USDT" pD
    (by
      have htin : (0 : ℚ) < tin := by norm_num [tin]
      have hef : pD.ema_fast = 3 := rfl
      have hpp : pD.pullback_pct = 1 / 100 := rfl
      rw [exC15_ilast_close, hef, exC15_ilast_ema, hpp,
        show tin - 2 * tin = -tin by ring, abs_neg, abs_of_nonneg htin.le,
        max_eq_right (by norm_num [tin] : tin ≤ 1 / 10 ^ 9)]
      norm_num [tin])
    (by
      have hef : pD.ema_fast = 3 := rfl
      rw [exC15_ilast_low, hef, exC15_ilast_ema, exC15_ilast_high]
      rintro ⟨-, h2⟩
      have htin : (0 : ℚ) < tin := by norm_num [tin]
      linarith)
